import Mathlib

set_option linter.unusedVariables false

/-!
Verification of the landscape-client package facade and skeleton hashing.

This file gives a shallow embedding of the core of
landscape/package/skeleton.py and landscape/package/facade.py and proves
the frozen specification claims about them.  Python strings become Lean
String (or List Char where character-level reasoning is needed), Python
lists become List, Python sets become Finset, and the external apt
library calls made by AptFacade.perform_changes are modelled as oracle
inputs, since the apt resolver is an opaque external engine.
-/

namespace Landscape

/-! ### Relation type constants (landscape/package/skeleton.py, lines 6-18)

In the source these are bit-or combinations; the bit ranges are disjoint
so each value is written here as the sum it evaluates to. -/

def PACKAGE : Nat := 1
def PROVIDES : Nat := 2
def REQUIRES : Nat := 4
def UPGRADES : Nat := 8
def CONFLICTS : Nat := 16

def DEB_PACKAGE : Nat := 1 * 65536 + PACKAGE
def DEB_PROVIDES : Nat := 2 * 65536 + PROVIDES
def DEB_NAME_PROVIDES : Nat := 3 * 65536 + PROVIDES
def DEB_REQUIRES : Nat := 4 * 65536 + REQUIRES
def DEB_OR_REQUIRES : Nat := 5 * 65536 + REQUIRES
def DEB_UPGRADES : Nat := 6 * 65536 + UPGRADES
def DEB_CONFLICTS : Nat := 7 * 65536 + CONFLICTS

/-! ### SHA-1 (landscape.lib.hashlib.sha1 of the serialized skeleton)

A byte-level executable SHA-1 over List Nat, each entry a byte value.
Machine words are Nat values kept below 2 to the 32 by explicit mod. -/

def w32 : Nat := 4294967296

def rotl32 (n x : Nat) : Nat :=
  (x % 2 ^ (32 - n)) * 2 ^ n + x / 2 ^ (32 - n)

def sha1K (t : Nat) : Nat :=
  if t < 20 then 1518500249
  else if t < 40 then 1859775393
  else if t < 60 then 2400959708
  else 3395469782

def sha1F (t b c d : Nat) : Nat :=
  if t < 20 then Nat.lor (Nat.land b c) (Nat.land (4294967295 - b) d)
  else if t < 40 then Nat.xor (Nat.xor b c) d
  else if t < 60 then Nat.lor (Nat.lor (Nat.land b c) (Nat.land b d)) (Nat.land c d)
  else Nat.xor (Nat.xor b c) d

def wordsOfBytes : List Nat → List Nat
  | b0 :: b1 :: b2 :: b3 :: rest =>
    (b0 * 16777216 + b1 * 65536 + b2 * 256 + b3) :: wordsOfBytes rest
  | _ => []

def sha1Schedule (ws : List Nat) : List Nat :=
  (List.range 80).foldl
    (fun acc t =>
      if t < 16 then acc ++ [ws.getD t 0]
      else
        acc ++ [rotl32 1 (Nat.xor
          (Nat.xor (acc.getD (t - 3) 0) (acc.getD (t - 8) 0))
          (Nat.xor (acc.getD (t - 14) 0) (acc.getD (t - 16) 0)))])
    []

def sha1Round (st : Nat × Nat × Nat × Nat × Nat) (tw : Nat × Nat) :
    Nat × Nat × Nat × Nat × Nat :=
  match st, tw with
  | (a, b, c, d, e), (t, w) =>
    ((rotl32 5 a + sha1F t b c d + e + sha1K t + w) % w32, a, rotl32 30 b, c, d)

def sha1Block (h : Nat × Nat × Nat × Nat × Nat) (block : List Nat) :
    Nat × Nat × Nat × Nat × Nat :=
  match h with
  | (h0, h1, h2, h3, h4) =>
    match ((List.range 80).zip (sha1Schedule (wordsOfBytes block))).foldl
        sha1Round (h0, h1, h2, h3, h4) with
    | (a, b, c, d, e) =>
      ((h0 + a) % w32, (h1 + b) % w32, (h2 + c) % w32,
       (h3 + d) % w32, (h4 + e) % w32)

def lenBytes64 (n : Nat) : List Nat :=
  [n / 2 ^ 56 % 256, n / 2 ^ 48 % 256, n / 2 ^ 40 % 256, n / 2 ^ 32 % 256,
   n / 2 ^ 24 % 256, n / 2 ^ 16 % 256, n / 2 ^ 8 % 256, n % 256]

def sha1Pad (msg : List Nat) : List Nat :=
  msg ++ 128 :: List.replicate ((119 - msg.length % 64) % 64) 0
    ++ lenBytes64 (8 * msg.length)

def chunk64 (l : List Nat) : List (List Nat) :=
  if h : l = [] then []
  else l.take 64 :: chunk64 (l.drop 64)
termination_by l.length
decreasing_by
  rw [List.length_drop]
  exact Nat.sub_lt (List.length_pos.mpr h) (by norm_num)

def bytesOfWord (w : Nat) : List Nat :=
  [w / 2 ^ 24 % 256, w / 2 ^ 16 % 256, w / 2 ^ 8 % 256, w % 256]

def sha1Digest (h : Nat × Nat × Nat × Nat × Nat) : List Nat :=
  bytesOfWord h.1 ++ bytesOfWord h.2.1 ++ bytesOfWord h.2.2.1
    ++ bytesOfWord h.2.2.2.1 ++ bytesOfWord h.2.2.2.2

def sha1Bytes (msg : List Nat) : List Nat :=
  sha1Digest ((chunk64 (sha1Pad msg)).foldl sha1Block
    (1732584193, 4023233417, 2562383102, 271733878, 3285377520))

/-- UTF-8 encoding of one character, as byte values. -/
def utf8Bytes (c : Char) : List Nat :=
  let n := c.toNat
  if n < 128 then [n]
  else if n < 2048 then [192 + n / 64, 128 + n % 64]
  else if n < 65536 then [224 + n / 4096, 128 + n / 64 % 64, 128 + n % 64]
  else [240 + n / 262144, 128 + n / 4096 % 64, 128 + n / 64 % 64, 128 + n % 64]

def strBytes (s : String) : List Nat :=
  (s.data.map utf8Bytes).flatten

def sha1String (s : String) : List Nat :=
  sha1Bytes (strBytes s)

/-! ### PackageSkeleton (landscape/package/skeleton.py, lines 25-47)

The five optional metadata fields default to none, exactly like the
Python class attributes defaulting to None.  The Python field named
section is called sectionInfo here because section is a Lean keyword. -/

structure PackageSkeleton where
  type : Nat
  name : String
  version : String
  relations : List (Nat × String)
  sectionInfo : Option String := none
  summary : Option String := none
  description : Option String := none
  size : Option Nat := none
  installedSize : Option Nat := none
deriving DecidableEq

def PackageSkeleton.add_relation (s : PackageSkeleton) (type : Nat)
    (info : String) : PackageSkeleton :=
  { s with relations := s.relations ++ [(type, info)] }

/-- The order used by Python list.sort() on (int, str) tuples:
lexicographic on the pair, ints by less-than, strings by code points. -/
def relLe (a b : Nat × String) : Prop :=
  a.1 < b.1 ∨ (a.1 = b.1 ∧ a.2 ≤ b.2)

instance : DecidableRel relLe := fun a b => by
  unfold relLe
  infer_instance

instance : IsTotal (Nat × String) relLe :=
  ⟨fun a b => by
    rcases Nat.lt_trichotomy a.1 b.1 with h | h | h
    · exact Or.inl (Or.inl h)
    · rcases le_total a.2 b.2 with h2 | h2
      · exact Or.inl (Or.inr ⟨h, h2⟩)
      · exact Or.inr (Or.inr ⟨h.symm, h2⟩)
    · exact Or.inr (Or.inl h)⟩

instance : IsTrans (Nat × String) relLe :=
  ⟨by
    rintro a b c (h1 | ⟨h1, h1s⟩) (h2 | ⟨h2, h2s⟩)
    · exact Or.inl (h1.trans h2)
    · exact Or.inl (h2 ▸ h1)
    · exact Or.inl (h1 ▸ h2)
    · exact Or.inr ⟨h1.trans h2, h1s.trans h2s⟩⟩

instance : IsAntisymm (Nat × String) relLe :=
  ⟨by
    rintro ⟨a1, a2⟩ ⟨b1, b2⟩ (h1 | ⟨h1, h1s⟩) (h2 | ⟨h2, h2s⟩)
    · exact absurd h2 (Nat.lt_asymm h1)
    · exact absurd h1 (by omega)
    · exact absurd h2 (by omega)
    · exact Prod.ext h1 (le_antisymm h1s h2s)⟩

/-- One serialized relation, the Python percent-format of one pair. -/
def relationChunk (p : Nat × String) : String :=
  "[" ++ toString p.1 ++ " " ++ p.2 ++ "]"

/-- The serialized head of the skeleton fed to the digest first. -/
def skeletonHeader (s : PackageSkeleton) : String :=
  "[" ++ toString s.type ++ " " ++ s.name ++ " " ++ s.version ++ "]"

/-- get_hash with its in-place effect made explicit: the digest of the
serialized skeleton, paired with the skeleton after the in-place
relations.sort().  The incremental hashlib updates are the digest of the
concatenation accumulated left to right by foldl. -/
def PackageSkeleton.get_hash_run (s : PackageSkeleton) :
    List Nat × PackageSkeleton :=
  let sorted := s.relations.insertionSort relLe
  let serialized := sorted.foldl (fun acc p => acc ++ relationChunk p)
    (skeletonHeader s)
  (sha1String serialized, { s with relations := sorted })

/-- The digest returned by get_hash. -/
def PackageSkeleton.get_hash (s : PackageSkeleton) : List Nat :=
  s.get_hash_run.1

/-- Serialization following the words of the specification: the header
chunk followed by one chunk per relation in sorted order, concatenated
with no separators. -/
def specSerialize (s : PackageSkeleton) : String :=
  skeletonHeader s ++ String.join ((s.relations.insertionSort relLe).map relationChunk)

/-! ### Hashing lemmas -/

theorem join_cons_str (a : String) (l : List String) :
    String.join (a :: l) = a ++ String.join l := by
  apply String.ext
  simp [String.data_join]

theorem foldl_chunk_eq_join (l : List (Nat × String)) (init : String) :
    l.foldl (fun acc p => acc ++ relationChunk p) init
      = init ++ String.join (l.map relationChunk) := by
  induction l generalizing init with
  | nil => simp [String.join, String.append_empty]
  | cons p t ih =>
    simp only [List.foldl_cons, List.map_cons, join_cons_str]
    rw [ih, String.append_assoc]

theorem sha1Bytes_length (msg : List Nat) : (sha1Bytes msg).length = 20 := by
  simp [sha1Bytes, sha1Digest, bytesOfWord]

/-- Claim C3: get_hash is the 20-byte SHA-1 digest of the header chunk
followed by one bracketed chunk per relation, taken in the
lexicographically sorted relation order, with no other separators.  The
last two conjuncts record that the sequence hashed is precisely the
sorted permutation of the skeleton relations. -/
theorem get_hash_serialization_spec (s : PackageSkeleton) :
    s.get_hash = sha1Bytes (strBytes (specSerialize s)) ∧
    s.get_hash.length = 20 ∧
    List.Sorted relLe (s.relations.insertionSort relLe) ∧
    (s.relations.insertionSort relLe).Perm s.relations := by
  refine ⟨?_, ?_, List.sorted_insertionSort relLe s.relations,
    List.perm_insertionSort relLe s.relations⟩
  · simp only [PackageSkeleton.get_hash, PackageSkeleton.get_hash_run,
      sha1String, specSerialize, foldl_chunk_eq_join]
  · simp only [PackageSkeleton.get_hash, PackageSkeleton.get_hash_run,
      sha1String, sha1Bytes_length]

/-- Claim C2: two skeletons with the same type tag, name and version and
the same relations up to insertion order hash identically; the optional
metadata fields (sectionInfo, summary, description, size, installedSize)
are unconstrained on either side, so the hash is independent of them. -/
theorem get_hash_perm_invariant (s1 s2 : PackageSkeleton)
    (ht : s1.type = s2.type) (hn : s1.name = s2.name)
    (hv : s1.version = s2.version)
    (hr : s1.relations.Perm s2.relations) :
    s1.get_hash = s2.get_hash := by
  have hsorted : s1.relations.insertionSort relLe
      = s2.relations.insertionSort relLe :=
    List.eq_of_perm_of_sorted
      ((List.perm_insertionSort relLe s1.relations).trans
        (hr.trans (List.perm_insertionSort relLe s2.relations).symm))
      (List.sorted_insertionSort relLe s1.relations)
      (List.sorted_insertionSort relLe s2.relations)
  simp only [PackageSkeleton.get_hash, PackageSkeleton.get_hash_run,
    skeletonHeader, ht, hn, hv, hsorted]

/-- Witness for C2 at concrete skeletons: same relations added in two
different orders, different metadata, same digest. -/
theorem get_hash_perm_invariant_witness :
    PackageSkeleton.get_hash
      ⟨DEB_PACKAGE, "name", "1.0", [(DEB_REQUIRES, "b"), (DEB_PROVIDES, "a")],
        some "admin", some "sum", none, some 10, none⟩
      = PackageSkeleton.get_hash
      ⟨DEB_PACKAGE, "name", "1.0", [(DEB_PROVIDES, "a"), (DEB_REQUIRES, "b")],
        none, none, none, none, none⟩ :=
  get_hash_perm_invariant _ _ rfl rfl rfl (by decide)

/-- Claim C10: running get_hash a second time, on the skeleton left
behind by the first run (whose relations list was sorted in place),
returns the same digest; the first conjunct is the repeated-digest
equality and the second records the in-place sort. -/
theorem get_hash_repeat (s : PackageSkeleton) :
    (s.get_hash_run.2).get_hash_run.1 = s.get_hash_run.1 ∧
    s.get_hash_run.2.relations = s.relations.insertionSort relLe := by
  constructor
  · simp only [PackageSkeleton.get_hash_run, skeletonHeader,
      (List.sorted_insertionSort relLe s.relations).insertionSort_eq]
  · rfl

/-! ### AptFacade model (landscape/package/facade.py)

An apt version object is identified by its package name and version
string.  A package cache entry carries the live apt state read by the
facade: installed and candidate version, the four depcache change marks,
the dpkg hold selection state and the broken flag.  The apt library
itself (candidate selection, mark_install, global upgrade, the
ProblemResolver and cache.commit) is an external engine; its effects on
the speculative cache state and the outcome of resolution and commit are
supplied as an oracle. -/

structure PVersion where
  pkg : String
  ver : String
deriving DecidableEq

structure PkgState where
  name : String
  isMainArch : Bool
  installed : Option PVersion
  candidate : Option PVersion
  markedInstall : Bool
  markedUpgrade : Bool
  markedDowngrade : Bool
  markedDelete : Bool
  held : Bool
  instBroken : Bool
deriving DecidableEq

abbrev Cache := List PkgState

/-- Look up the package object owning a version, by name. -/
def lookupPkg (cache : Cache) (name : String) : Option PkgState :=
  cache.find? (fun p => p.name == name)

/-- AptFacade.is_package_installed: the version equals the installed
version of its package. -/
def is_package_installed (cache : Cache) (v : PVersion) : Bool :=
  match lookupPkg cache v.pkg with
  | some p => p.installed == some v
  | none => false

/-- AptFacade._is_package_held: the dpkg selected state is hold. -/
def is_package_held (cache : Cache) (name : String) : Bool :=
  match lookupPkg cache name with
  | some p => p.held
  | none => false

/-- AptFacade._get_broken_packages: the set of (main-architecture,
catalog-visible) package names whose is_inst_broken flag is set.  The
facade iterates its catalog, which reload_channels builds from exactly
the main-architecture packages of this cache. -/
def get_broken_packages (cache : Cache) : Finset String :=
  ((cache.filter (fun p => p.isMainArch && p.instBroken)).map
    (fun p => p.name)).toFinset

/-- The apt cache.get_changes() view: packages carrying any change mark. -/
def get_changes (cache : Cache) : Cache :=
  cache.filter (fun p =>
    p.markedInstall || p.markedUpgrade || p.markedDowngrade || p.markedDelete)

/-- AptFacade._get_changed_versions, returning none on the fallthrough
branch (a changed package with none of the four marks). -/
def get_changed_versions (p : PkgState) : Option (List (Option PVersion)) :=
  if p.markedInstall then some [p.candidate]
  else if p.markedUpgrade || p.markedDowngrade then
    some [p.installed, p.candidate]
  else if p.markedDelete then some [p.installed]
  else none

/-- The set of (package name, version) pairs apt plans to change, built
by AptFacade._check_changes from get_changes.  For packages returned by
get_changes one of the four marks is set, so the none branch of
get_changed_versions contributes nothing (in Python it is unreachable). -/
def versions_to_be_changed (cache : Cache) : Finset (String × Option PVersion) :=
  ((get_changes cache).filter (fun p => p.isMainArch)).foldl
    (fun acc p =>
      acc ∪ (((get_changed_versions p).getD []).map
        (fun v => (p.name, v))).toFinset)
    ∅

/-- AptFacade._check_changes: error carries the DependencyError packages
(the version component of every planned pair not requested); ok carries
whether the planned change set is nonempty. -/
def check_changes (cache : Cache) (requested : List PVersion) :
    Except (Finset (Option PVersion)) Bool :=
  let allChanges := (requested.map (fun v => (v.pkg, some v))).toFinset
  let toChange := versions_to_be_changed cache
  let dependencies := toChange \ allChanges
  if dependencies ≠ ∅ then Except.error (dependencies.image Prod.snd)
  else Except.ok (0 < toChange.card)

/-- The facade state: the apt cache plus the five mark fields set in
AptFacade.__init__ and mutated only by the mark_* and reset_marks
methods. -/
structure Facade where
  cache : Cache
  version_installs : List PVersion
  version_removals : List PVersion
  version_hold_creations : List PVersion
  version_hold_removals : List PVersion
  global_upgrade : Bool
deriving DecidableEq

def Facade.marks (f : Facade) :
    List PVersion × List PVersion × List PVersion × List PVersion × Bool :=
  (f.version_installs, f.version_removals, f.version_hold_creations,
   f.version_hold_removals, f.global_upgrade)

def mark_install (f : Facade) (v : PVersion) : Facade :=
  { f with version_installs := f.version_installs ++ [v] }

def mark_remove (f : Facade) (v : PVersion) : Facade :=
  { f with version_removals := f.version_removals ++ [v] }

def mark_create_hold (f : Facade) (v : PVersion) : Facade :=
  { f with version_hold_creations := f.version_hold_creations ++ [v] }

def mark_remove_hold (f : Facade) (v : PVersion) : Facade :=
  { f with version_hold_removals := f.version_hold_removals ++ [v] }

def mark_global_upgrade (f : Facade) : Facade :=
  { f with global_upgrade := true }

/-- apt cache.clear(): drop all speculative change marks. -/
def clearCacheMarks (cache : Cache) : Cache :=
  cache.map (fun p =>
    { p with markedInstall := false, markedUpgrade := false,
             markedDowngrade := false, markedDelete := false })

def reset_marks (f : Facade) : Facade :=
  { f with version_installs := [], version_removals := [],
           version_hold_removals := [], version_hold_creations := [],
           global_upgrade := false, cache := clearCacheMarks f.cache }

/-- Typed view of the errors perform_changes raises.  The Python
TransactionError messages are built by string interpolation; here each
carries the structured data interpolated into the message.  For the
not-installed message the source additionally sorts the versions by
apt's version comparison before joining, which only permutes the listed
names.  For the resolve failure the source appends the rendered
unmet-dependency report to the resolver message. -/
inductive PError where
  | transactionNotInstalled (names : List String)
  | transactionHeld (names : List String)
  | transactionResolve (msg : String)
  | transactionCommit (log : String)
  | dependency (packages : Finset (Option PVersion))
deriving DecidableEq

instance {ε α : Type} [DecidableEq ε] [DecidableEq α] :
    DecidableEq (Except ε α) := fun a b =>
  match a, b with
  | Except.error x, Except.error y =>
    if h : x = y then isTrue (by rw [h])
    else isFalse (by intro hc; cases hc; exact h rfl)
  | Except.error _, Except.ok _ => isFalse (by intro hc; cases hc)
  | Except.ok _, Except.error _ => isFalse (by intro hc; cases hc)
  | Except.ok x, Except.ok y =>
    if h : x = y then isTrue (by rw [h])
    else isFalse (by intro hc; cases hc; exact h rfl)

/-- Effects and results of perform_changes made explicit: the returned
value (or raised error), the facade afterwards, the holds actually
created and removed through dpkg, and whether cache.commit was invoked. -/
structure PerformResult where
  result : Except PError (Option String)
  facade : Facade
  holdsSet : List PVersion
  holdsUnset : List PVersion
  committed : Bool
deriving DecidableEq

/-- The behaviour of the external apt engine during one
perform_changes run: the speculative cache state after candidate
selection, marking and the global-upgrade pass; the state after a
ProblemResolver.resolve call and whether that call succeeds; and the
outcome of cache.commit. -/
structure AptOracle where
  cacheAfterMark : Cache
  cacheAfterResolve : Cache
  resolveOk : Bool
  resolveMsg : String
  commitOk : Bool
  commitLog : String
deriving DecidableEq

def holdsSuccessMessage : String := "Package holds successfully changed."

/-- Code-point lexicographic comparison of character lists, the order
Python uses on strings. -/
def charListLe : List Char → List Char → Bool
  | [], _ => true
  | _ :: _, [] => false
  | c :: cs, d :: ds =>
    if c.toNat < d.toNat then true
    else if d.toNat < c.toNat then false
    else charListLe cs ds

def pyStrLe (a b : String) : Prop := charListLe a.data b.data = true

instance : DecidableRel pyStrLe := fun a b => by
  unfold pyStrLe
  infer_instance

/-- Python sorted() applied to a set of strings: the distinct elements
in ascending code-point order. -/
def pySortedStrings (l : List String) : List String :=
  l.dedup.insertionSort pyStrLe

/-- The version-change tail of AptFacade.perform_changes (facade.py
lines 606-682): the held-removal check, the broken-set comparison and
resolver invocation, _check_changes, and the commit.  The holdsSet and
holdsUnset arguments carry the hold effects already applied by the hold
phase. -/
def commit_phase (f : Facade) (o : AptOracle)
    (holdsSet holdsUnset : List PVersion) : PerformResult :=
  let version_changes := f.version_installs ++ f.version_removals
  let already_broken := get_broken_packages f.cache
  let cache1 := o.cacheAfterMark
  let held_package_names : List String :=
    (f.version_removals.filter (fun v => is_package_held f.cache v.pkg)).map
      (fun v => v.pkg)
  if held_package_names ≠ [] then
    { result := Except.error (PError.transactionHeld
        (pySortedStrings held_package_names)),
      facade := { f with cache := cache1 },
      holdsSet := holdsSet, holdsUnset := holdsUnset, committed := false }
  else
    let resolveNeeded := get_broken_packages cache1 ≠ already_broken
    let cache2 := if resolveNeeded then o.cacheAfterResolve else cache1
    if resolveNeeded ∧ !o.resolveOk then
      { result := Except.error (PError.transactionResolve o.resolveMsg),
        facade := { f with cache := cache2 },
        holdsSet := holdsSet, holdsUnset := holdsUnset, committed := false }
    else
      match check_changes cache2 version_changes with
      | Except.error deps =>
        { result := Except.error (PError.dependency deps),
          facade := { f with cache := cache2 },
          holdsSet := holdsSet, holdsUnset := holdsUnset, committed := false }
      | Except.ok false =>
        { result := Except.ok none, facade := { f with cache := cache2 },
          holdsSet := holdsSet, holdsUnset := holdsUnset, committed := false }
      | Except.ok true =>
        if o.commitOk then
          { result := Except.ok (some o.commitLog),
            facade := { f with cache := cache2 },
            holdsSet := holdsSet, holdsUnset := holdsUnset, committed := true }
        else
          { result := Except.error (PError.transactionCommit o.commitLog),
            facade := { f with cache := cache2 },
            holdsSet := holdsSet, holdsUnset := holdsUnset, committed := true }

/-- AptFacade.perform_changes (facade.py lines 562-682), preserving its
control flow: the empty-queue no-op short circuit; hold-creation
validation followed by applying hold changes; then, when version changes
or a global upgrade are queued, the commit_phase tail above.  Held and
installed states are read from the facade's in-memory cache, loaded
before the call. -/
def perform_changes (f : Facade) (o : AptOracle) : PerformResult :=
  let version_changes := f.version_installs ++ f.version_removals
  let hold_changes := f.version_hold_creations ++ f.version_hold_removals
  if hold_changes.isEmpty && version_changes.isEmpty && !f.global_upgrade then
    { result := Except.ok none, facade := f, holdsSet := [], holdsUnset := [],
      committed := false }
  else
    let not_installed := f.version_hold_creations.filter
      (fun v => !is_package_installed f.cache v)
    if !hold_changes.isEmpty && !not_installed.isEmpty then
      { result := Except.error (PError.transactionNotInstalled
          (not_installed.map (fun v => v.pkg))),
        facade := f, holdsSet := [], holdsUnset := [], committed := false }
    else
      let holdsSet := if hold_changes.isEmpty then [] else f.version_hold_creations
      let holdsUnset := if hold_changes.isEmpty then [] else
        f.version_hold_removals.filter (fun v =>
          is_package_installed f.cache v && is_package_held f.cache v.pkg)
      if version_changes.isEmpty && !f.global_upgrade then
        { result := Except.ok (some holdsSuccessMessage), facade := f,
          holdsSet := holdsSet, holdsUnset := holdsUnset, committed := false }
      else
        commit_phase f o holdsSet holdsUnset

/-! ### Facade theorems -/

/-- perform_changes never writes the five mark fields, whatever path it
takes and whatever the oracle does. -/
theorem perform_marks_frame (f : Facade) (o : AptOracle) :
    (perform_changes f o).facade.marks = f.marks := by
  simp only [perform_changes, commit_phase]
  repeat' split
  all_goals rfl

/-- Claim C7: with all four mark collections empty and the
global-upgrade flag unset, perform_changes returns the no-op result
immediately: the facade is returned unchanged, no hold is touched and no
commit is invoked. -/
theorem perform_changes_noop (f : Facade) (o : AptOracle)
    (hi : f.version_installs = []) (hr : f.version_removals = [])
    (hc : f.version_hold_creations = []) (hh : f.version_hold_removals = [])
    (hg : f.global_upgrade = false) :
    perform_changes f o =
      { result := Except.ok none, facade := f, holdsSet := [],
        holdsUnset := [], committed := false } := by
  simp [perform_changes, hi, hr, hc, hh, hg]

/-- Witness for C7 on a concrete empty queue. -/
theorem perform_changes_noop_witness :
    perform_changes ⟨[], [], [], [], [], false⟩ ⟨[], [], true, "", true, ""⟩ =
      { result := Except.ok none, facade := ⟨[], [], [], [], [], false⟩,
        holdsSet := [], holdsUnset := [], committed := false } :=
  perform_changes_noop _ _ rfl rfl rfl rfl rfl

/-- Claim C4: after a perform_changes call that fails, the four mark
collections and the global-upgrade flag hold exactly their previous
values, and reset_marks is the operation that clears them. -/
theorem perform_changes_failure_frame (f : Facade) (o : AptOracle)
    (e : PError) (hfail : (perform_changes f o).result = Except.error e) :
    (perform_changes f o).facade.marks = f.marks ∧
    ∀ g : Facade, (reset_marks g).marks = ([], [], [], [], false) :=
  ⟨perform_marks_frame f o, fun _ => rfl⟩

/-- Witness for C4 on a concrete failing call (a hold creation whose
target is not installed). -/
theorem perform_changes_failure_frame_witness :
    (perform_changes ⟨[], [], [], [⟨"b", "1"⟩], [], false⟩
        ⟨[], [], true, "", true, ""⟩).facade.marks
      = Facade.marks ⟨[], [], [], [⟨"b", "1"⟩], [], false⟩ ∧
    ∀ g : Facade, (reset_marks g).marks = ([], [], [], [], false) :=
  perform_changes_failure_frame ⟨[], [], [], [⟨"b", "1"⟩], [], false⟩
    ⟨[], [], true, "", true, ""⟩
    (PError.transactionNotInstalled ["b"]) (by decide)

/-- Claim C6: if some queued hold creation targets a version that is not
installed, perform_changes fails with a TransactionError naming exactly
the non-installed targets, touches no hold and performs no commit. -/
theorem perform_changes_hold_not_installed (f : Facade) (o : AptOracle)
    (hne : f.version_hold_creations.filter
      (fun v => !is_package_installed f.cache v) ≠ []) :
    perform_changes f o =
      { result := Except.error (PError.transactionNotInstalled
          ((f.version_hold_creations.filter
            (fun v => !is_package_installed f.cache v)).map (fun v => v.pkg))),
        facade := f, holdsSet := [], holdsUnset := [], committed := false } ∧
    ∀ n, n ∈ (f.version_hold_creations.filter
        (fun v => !is_package_installed f.cache v)).map (fun v => v.pkg) ↔
      ∃ v ∈ f.version_hold_creations,
        is_package_installed f.cache v = false ∧ v.pkg = n := by
  constructor
  · have hc : f.version_hold_creations ≠ [] := by
      intro h
      exact hne (by simp [h])
    have h1 : (f.version_hold_creations ++ f.version_hold_removals).isEmpty = false := by
      simp [List.isEmpty_iff, hc]
    simp [perform_changes, h1, List.isEmpty_iff, hne]
  · intro n
    simp only [List.mem_map, List.mem_filter, Bool.not_eq_true']
    tauto

/-- Witness for C6: one hold creation on a version absent from the
cache. -/
theorem perform_changes_hold_not_installed_witness :
    perform_changes ⟨[], [], [], [⟨"b", "1"⟩], [], false⟩
        ⟨[], [], true, "", true, ""⟩ =
      { result := Except.error (PError.transactionNotInstalled ["b"]),
        facade := ⟨[], [], [], [⟨"b", "1"⟩], [], false⟩,
        holdsSet := [], holdsUnset := [], committed := false } :=
  (perform_changes_hold_not_installed ⟨[], [], [], [⟨"b", "1"⟩], [], false⟩
    ⟨[], [], true, "", true, ""⟩ (by decide)).1

/-- Claim C5: if some version marked for removal belongs to a held
package (and hold validation passes, so the run reaches the version
phase), perform_changes fails with a TransactionError naming every held
package blocking removal, as the sorted set of their names, and never
invokes the commit, leaving installed state untouched. -/
theorem perform_changes_held_removal (f : Facade) (o : AptOracle)
    (hvalid : f.version_hold_creations.filter
      (fun v => !is_package_installed f.cache v) = [])
    (hheld : f.version_removals.filter
      (fun v => is_package_held f.cache v.pkg) ≠ []) :
    (perform_changes f o).result = Except.error (PError.transactionHeld
      (pySortedStrings ((f.version_removals.filter
        (fun v => is_package_held f.cache v.pkg)).map (fun v => v.pkg)))) ∧
    (perform_changes f o).committed = false ∧
    ∀ n, n ∈ pySortedStrings ((f.version_removals.filter
        (fun v => is_package_held f.cache v.pkg)).map (fun v => v.pkg)) ↔
      ∃ v ∈ f.version_removals,
        is_package_held f.cache v.pkg = true ∧ v.pkg = n := by
  have hrem : f.version_removals ≠ [] := by
    intro h
    exact hheld (by simp [h])
  have hne : ((f.version_removals.filter
      (fun v => is_package_held f.cache v.pkg)).map (fun v => v.pkg)) ≠ [] := by
    simp only [ne_eq, List.map_eq_nil_iff]
    exact hheld
  have hver : (f.version_installs ++ f.version_removals).isEmpty = false := by
    simp [List.isEmpty_iff, hrem]
  refine ⟨?_, ?_, ?_⟩
  · simp [perform_changes, commit_phase, hver, hvalid, hne, List.isEmpty_iff]
  · simp [perform_changes, commit_phase, hver, hvalid, hne, List.isEmpty_iff]
  · intro n
    simp only [pySortedStrings, List.mem_insertionSort, List.mem_dedup,
      List.mem_map, List.mem_filter]
    tauto

/-- Witness for C5: one removal of the installed, held package a. -/
theorem perform_changes_held_removal_witness :
    (perform_changes
      ⟨[⟨"a", true, some ⟨"a", "1"⟩, some ⟨"a", "1"⟩,
          false, false, false, false, true, false⟩],
        [], [⟨"a", "1"⟩], [], [], false⟩
      ⟨[], [], true, "", true, ""⟩).result
      = Except.error (PError.transactionHeld ["a"]) ∧
    (perform_changes
      ⟨[⟨"a", true, some ⟨"a", "1"⟩, some ⟨"a", "1"⟩,
          false, false, false, false, true, false⟩],
        [], [⟨"a", "1"⟩], [], [], false⟩
      ⟨[], [], true, "", true, ""⟩).committed = false := by
  have h := perform_changes_held_removal
    ⟨[⟨"a", true, some ⟨"a", "1"⟩, some ⟨"a", "1"⟩,
        false, false, false, false, true, false⟩],
      [], [⟨"a", "1"⟩], [], [], false⟩
    ⟨[], [], true, "", true, ""⟩ (by decide) (by decide)
  refine ⟨?_, h.2.1⟩
  rw [h.1]
  decide

/-- When the planned change set exceeds the requested one,
check_changes raises DependencyError carrying the version component of
exactly the excess pairs. -/
theorem check_changes_error_eq (cache : Cache) (requested : List PVersion)
    (h : versions_to_be_changed cache \
      (requested.map (fun v => (v.pkg, some v))).toFinset ≠ ∅) :
    check_changes cache requested = Except.error
      ((versions_to_be_changed cache \
        (requested.map (fun v => (v.pkg, some v))).toFinset).image Prod.snd) := by
  simp [check_changes, h]

/-- When check_changes returns without raising, the planned change set
is contained in the requested one. -/
theorem check_changes_ok_subset (cache : Cache) (requested : List PVersion)
    (b : Bool) (h : check_changes cache requested = Except.ok b) :
    versions_to_be_changed cache ⊆
      (requested.map (fun v => (v.pkg, some v))).toFinset := by
  by_cases hd : versions_to_be_changed cache \
      (requested.map (fun v => (v.pkg, some v))).toFinset = ∅
  · exact Finset.sdiff_eq_empty_iff_subset.mp hd
  · simp [check_changes, hd] at h

/-- Under the hypotheses that let perform_changes reach the version
phase, it equals commit_phase with the hold effects of the hold phase. -/
theorem perform_changes_eq_commit_phase (f : Facade) (o : AptOracle)
    (hver : f.version_installs ++ f.version_removals ≠ [] ∨
      f.global_upgrade = true)
    (hvalid : f.version_hold_creations.filter
      (fun v => !is_package_installed f.cache v) = []) :
    perform_changes f o = commit_phase f o
      (if (f.version_hold_creations ++ f.version_hold_removals).isEmpty then []
        else f.version_hold_creations)
      (if (f.version_hold_creations ++ f.version_hold_removals).isEmpty then []
        else f.version_hold_removals.filter (fun v =>
          is_package_installed f.cache v && is_package_held f.cache v.pkg)) := by
  have h1 : ((f.version_hold_creations ++ f.version_hold_removals).isEmpty &&
      (f.version_installs ++ f.version_removals).isEmpty &&
      !f.global_upgrade) = false := by
    rcases hver with h | h
    · cases hl : (f.version_installs ++ f.version_removals).isEmpty with
      | false => simp [hl]
      | true => exact absurd (List.isEmpty_iff.mp hl) h
    · simp [h]
  have h3 : ((f.version_installs ++ f.version_removals).isEmpty &&
      !f.global_upgrade) = false := by
    rcases hver with h | h
    · simp [List.isEmpty_iff, h]
    · simp [h]
  simp [perform_changes, h1, h3, hvalid]

/-- The committed-excess behaviour of the commit phase: an excess plan
raises DependencyError with exactly the excess and no commit runs, and
a run that commits has its plan contained in the request. -/
theorem commit_phase_intent (f : Facade) (o : AptOracle)
    (hs hu : List PVersion)
    (hheld : f.version_removals.filter
      (fun v => is_package_held f.cache v.pkg) = [])
    (hres : get_broken_packages o.cacheAfterMark ≠ get_broken_packages f.cache →
      o.resolveOk = true)
    (cache2 : Cache)
    (hc2 : cache2 = if get_broken_packages o.cacheAfterMark ≠
        get_broken_packages f.cache
      then o.cacheAfterResolve else o.cacheAfterMark) :
    (versions_to_be_changed cache2 \
        (((f.version_installs ++ f.version_removals).map
          (fun v => (v.pkg, some v))).toFinset) ≠ ∅ →
      (commit_phase f o hs hu).result = Except.error (PError.dependency
        ((versions_to_be_changed cache2 \
          (((f.version_installs ++ f.version_removals).map
            (fun v => (v.pkg, some v))).toFinset)).image Prod.snd)) ∧
      (commit_phase f o hs hu).committed = false) ∧
    ((commit_phase f o hs hu).committed = true →
      versions_to_be_changed cache2 ⊆
        ((f.version_installs ++ f.version_removals).map
          (fun v => (v.pkg, some v))).toFinset) := by
  by_cases hrn : get_broken_packages o.cacheAfterMark =
      get_broken_packages f.cache
  · have hcc : cache2 = o.cacheAfterMark := by simp [hc2, hrn]
    subst hcc
    constructor
    · intro hdiff
      have he := check_changes_error_eq o.cacheAfterMark
        (f.version_installs ++ f.version_removals) hdiff
      simp [commit_phase, hheld, hrn, he]
    · intro hcommit
      rcases hco : check_changes o.cacheAfterMark
          (f.version_installs ++ f.version_removals) with e | b
      · simp [commit_phase, hheld, hrn, hco] at hcommit
      · exact check_changes_ok_subset _ _ b hco
  · have hok : o.resolveOk = true := hres hrn
    have hcc : cache2 = o.cacheAfterResolve := by simp [hc2, hrn]
    subst hcc
    constructor
    · intro hdiff
      have he := check_changes_error_eq o.cacheAfterResolve
        (f.version_installs ++ f.version_removals) hdiff
      simp [commit_phase, hheld, hrn, hok, he]
    · intro hcommit
      rcases hco : check_changes o.cacheAfterResolve
          (f.version_installs ++ f.version_removals) with e | b
      · simp [commit_phase, hheld, hrn, hok, hco] at hcommit
      · exact check_changes_ok_subset _ _ b hco

/-- Claim C1 as amended: when a perform_changes run reaches the
validation of the plan (hold validation passes, no held removal, the
resolver succeeds if invoked), then a plan containing any pair not
explicitly requested raises DependencyError carrying exactly the excess
pairs (their version component) and no commit runs; and a run that
commits has every planned change contained in the requested marks (the
plan can be a strict subset: marked versions already in place are not
re-changed). -/
theorem perform_changes_requested_intent (f : Facade) (o : AptOracle)
    (hver : f.version_installs ++ f.version_removals ≠ [] ∨
      f.global_upgrade = true)
    (hvalid : f.version_hold_creations.filter
      (fun v => !is_package_installed f.cache v) = [])
    (hheld : f.version_removals.filter
      (fun v => is_package_held f.cache v.pkg) = [])
    (hres : get_broken_packages o.cacheAfterMark ≠ get_broken_packages f.cache →
      o.resolveOk = true)
    (cache2 : Cache)
    (hc2 : cache2 = if get_broken_packages o.cacheAfterMark ≠
        get_broken_packages f.cache
      then o.cacheAfterResolve else o.cacheAfterMark) :
    (versions_to_be_changed cache2 \
        (((f.version_installs ++ f.version_removals).map
          (fun v => (v.pkg, some v))).toFinset) ≠ ∅ →
      (perform_changes f o).result = Except.error (PError.dependency
        ((versions_to_be_changed cache2 \
          (((f.version_installs ++ f.version_removals).map
            (fun v => (v.pkg, some v))).toFinset)).image Prod.snd)) ∧
      (perform_changes f o).committed = false) ∧
    ((perform_changes f o).committed = true →
      versions_to_be_changed cache2 ⊆
        ((f.version_installs ++ f.version_removals).map
          (fun v => (v.pkg, some v))).toFinset) := by
  rw [perform_changes_eq_commit_phase f o hver hvalid]
  exact commit_phase_intent f o _ _ hheld hres cache2 hc2

/-- Witness for the amended C1: marking only a for install while apt
additionally plans b yields DependencyError listing exactly b's
version. -/
theorem perform_changes_requested_intent_witness :
    (perform_changes
      ⟨[⟨"a", true, some ⟨"a", "1"⟩, some ⟨"a", "1"⟩,
          false, false, false, false, false, false⟩,
        ⟨"b", true, none, some ⟨"b", "1"⟩,
          false, false, false, false, false, false⟩],
        [⟨"a", "2"⟩], [], [], [], false⟩
      ⟨[⟨"a", true, some ⟨"a", "1"⟩, some ⟨"a", "2"⟩,
          true, false, false, false, false, false⟩,
        ⟨"b", true, none, some ⟨"b", "1"⟩,
          true, false, false, false, false, false⟩],
        [], true, "", true, "log"⟩).result
      = Except.error (PError.dependency {some ⟨"b", "1"⟩}) := by
  have h := (perform_changes_requested_intent
    ⟨[⟨"a", true, some ⟨"a", "1"⟩, some ⟨"a", "1"⟩,
        false, false, false, false, false, false⟩,
      ⟨"b", true, none, some ⟨"b", "1"⟩,
        false, false, false, false, false, false⟩],
      [⟨"a", "2"⟩], [], [], [], false⟩
    ⟨[⟨"a", true, some ⟨"a", "1"⟩, some ⟨"a", "2"⟩,
        true, false, false, false, false, false⟩,
      ⟨"b", true, none, some ⟨"b", "1"⟩,
        true, false, false, false, false, false⟩],
      [], true, "", true, "log"⟩
    (by decide) (by decide) (by decide) (by decide) _ rfl).1 (by decide)
  rw [h.1]
  decide

/-- Counterexample to the final clause of claim C1 as stated: a commit
that succeeds while the planned change set is strictly smaller than the
marked set, because the marked install of a at its already-installed
version produces no apt change.  The commit therefore does not change
exactly the marked versions, only a subset of them. -/
theorem perform_changes_exact_change_cex :
    ((perform_changes
      ⟨[⟨"a", true, some ⟨"a", "1"⟩, some ⟨"a", "1"⟩,
          false, false, false, false, false, false⟩,
        ⟨"b", true, none, some ⟨"b", "1"⟩,
          false, false, false, false, false, false⟩],
        [⟨"a", "1"⟩, ⟨"b", "1"⟩], [], [], [], false⟩
      ⟨[⟨"a", true, some ⟨"a", "1"⟩, some ⟨"a", "1"⟩,
          false, false, false, false, false, false⟩,
        ⟨"b", true, none, some ⟨"b", "1"⟩,
          true, false, false, false, false, false⟩],
        [], true, "", true, "log"⟩).result = Except.ok (some "log") ∧
     (perform_changes
      ⟨[⟨"a", true, some ⟨"a", "1"⟩, some ⟨"a", "1"⟩,
          false, false, false, false, false, false⟩,
        ⟨"b", true, none, some ⟨"b", "1"⟩,
          false, false, false, false, false, false⟩],
        [⟨"a", "1"⟩, ⟨"b", "1"⟩], [], [], [], false⟩
      ⟨[⟨"a", true, some ⟨"a", "1"⟩, some ⟨"a", "1"⟩,
          false, false, false, false, false, false⟩,
        ⟨"b", true, none, some ⟨"b", "1"⟩,
          true, false, false, false, false, false⟩],
        [], true, "", true, "log"⟩).committed = true) ∧
    versions_to_be_changed
      [⟨"a", true, some ⟨"a", "1"⟩, some ⟨"a", "1"⟩,
          false, false, false, false, false, false⟩,
        ⟨"b", true, none, some ⟨"b", "1"⟩,
          true, false, false, false, false, false⟩] ≠
      (([(⟨"a", "1"⟩ : PVersion), ⟨"b", "1"⟩]).map
        (fun v => (v.pkg, some v))).toFinset := by
  refine ⟨⟨by decide, by decide⟩, by decide⟩


/-! ### Unmet dependency satisfaction (facade.py lines 513-530)

A dependency is a list of or-groups; each group's all_targets() yields
target packages, modelled by the three state bits the code reads:
current_state == CURSTATE_INSTALLED, depcache.marked_install and
depcache.marked_delete. -/

structure DepTarget where
  curInstalled : Bool
  markedInstall : Bool
  markedDelete : Bool
deriving DecidableEq

/-- The per-target condition tested inside the loops of
_is_dependency_satisfied. -/
def target_will_be_installed (t : DepTarget) : Bool :=
  (t.curInstalled || t.markedInstall) && !t.markedDelete

/-- AptFacade._is_dependency_satisfied: the nested for loops return
is_positive as soon as some target passes the condition, and
not is_positive after exhausting all targets. -/
def is_dependency_satisfied (dependency : List (List DepTarget))
    (dep_type : String) : Bool :=
  let is_positive := !(["Breaks", "Conflicts"].contains dep_type)
  if dependency.any (fun orDep => orDep.any target_will_be_installed) then
    is_positive
  else !is_positive

/-- Claim C8: a positive dependency (Pre-Depends or Depends) is
satisfied exactly when some alternative target is installed or marked
for install and not marked for deletion; a negative dependency
(Conflicts or Breaks) is satisfied exactly when no such target exists. -/
theorem is_dependency_satisfied_spec (dependency : List (List DepTarget))
    (dep_type : String) :
    (dep_type = "PreDepends" ∨ dep_type = "Depends" →
      (is_dependency_satisfied dependency dep_type = true ↔
        ∃ orDep ∈ dependency, ∃ t ∈ orDep,
          ((t.curInstalled = true ∨ t.markedInstall = true) ∧
            t.markedDelete = false))) ∧
    (dep_type = "Conflicts" ∨ dep_type = "Breaks" →
      (is_dependency_satisfied dependency dep_type = true ↔
        ¬ ∃ orDep ∈ dependency, ∃ t ∈ orDep,
          ((t.curInstalled = true ∨ t.markedInstall = true) ∧
            t.markedDelete = false))) := by
  constructor
  · rintro (h | h) <;> subst h <;>
      simp [is_dependency_satisfied, target_will_be_installed,
        List.any_eq_true, Bool.and_eq_true, Bool.or_eq_true,
        Bool.not_eq_true']
  · rintro (h | h) <;> subst h <;>
      simp [is_dependency_satisfied, target_will_be_installed,
        List.any_eq_true, Bool.and_eq_true, Bool.or_eq_true,
        Bool.not_eq_true']

/-- Witness for C8 at a concrete one-target dependency. -/
theorem is_dependency_satisfied_spec_witness :
    is_dependency_satisfied [[⟨true, false, false⟩]] "Depends" = true :=
  ((is_dependency_satisfied_spec [[⟨true, false, false⟩]] "Depends").1
    (Or.inr rfl)).mpr
    ⟨[⟨true, false, false⟩], by simp, ⟨true, false, false⟩, by simp,
      Or.inl rfl, rfl⟩

/-! ### add_channel_apt_deb (facade.py lines 267-283)

File contents are modelled at character level because the function
splits the existing file on newline characters.  splitNl is the
semantics of the Python str.split on a single newline separator. -/

def splitNl : List Char → List (List Char)
  | [] => [[]]
  | c :: rest =>
    if c = Char.ofNat 10 then [] :: splitNl rest
    else
      match splitNl rest with
      | s :: ss => (c :: s) :: ss
      | [] => [[c]]

/-- The deb source line: "deb url codename" with the space-joined
components appended when the component list is non-empty. -/
def lineChars (url codename : String) (components : List String) : List Char :=
  let base := ("deb " ++ url ++ " " ++ codename).data
  if components.isEmpty then base
  else base ++ (" " ++ String.intercalate " " components).data

/-- AptFacade.add_channel_apt_deb acting on the internal sources file:
none models a missing file.  If the file exists and one of its lines is
already the deb line, return it unchanged; otherwise append the line
plus a newline (creating the file when missing). -/
def add_channel_apt_deb (file : Option (List Char)) (url codename : String)
    (components : List String) : Option (List Char) :=
  let line := lineChars url codename components
  match file with
  | some content =>
    if line ∈ splitNl content then some content
    else some (content ++ line ++ [Char.ofNat 10])
  | none => some (line ++ [Char.ofNat 10])

theorem splitNl_ne_nil (l : List Char) : splitNl l ≠ [] := by
  cases l with
  | nil => simp [splitNl]
  | cons c rest =>
    simp only [splitNl]
    split
    · simp
    · split <;> simp

theorem splitNl_append_newline (xs ys : List Char) :
    splitNl (xs ++ Char.ofNat 10 :: ys) = splitNl xs ++ splitNl ys := by
  induction xs with
  | nil => simp [splitNl]
  | cons c rest ih =>
    by_cases hc : c = Char.ofNat 10
    · subst hc
      simp [splitNl, ih]
    · simp only [List.cons_append, splitNl, if_neg hc]
      rcases hr : splitNl rest with _ | ⟨s, ss⟩
      · exact absurd hr (splitNl_ne_nil rest)
      · simp only [List.append_eq]
        rw [ih, hr]
        simp

theorem splitNl_no_newline (l : List Char) (h : Char.ofNat 10 ∉ l) :
    splitNl l = [l] := by
  induction l with
  | nil => rfl
  | cons c rest ih =>
    have hc : ¬ c = Char.ofNat 10 := fun he => h (he ▸ List.mem_cons_self c rest)
    have hr : Char.ofNat 10 ∉ rest := fun hm => h (List.mem_cons_of_mem c hm)
    simp [splitNl, hc, ih hr]

theorem mem_splitNl_appended (c line : List Char)
    (hnl : Char.ofNat 10 ∉ line)
    (hend : c = [] ∨ ∃ c0, c = c0 ++ [Char.ofNat 10]) :
    line ∈ splitNl (c ++ line ++ [Char.ofNat 10]) := by
  have hl : splitNl (line ++ [Char.ofNat 10]) = [line, []] := by
    have he : line ++ [Char.ofNat 10] = line ++ Char.ofNat 10 :: [] := rfl
    rw [he, splitNl_append_newline]
    simp [splitNl_no_newline line hnl, splitNl]
  rcases hend with h0 | ⟨c0, hc0⟩
  · subst h0
    simp [hl]
  · subst hc0
    have he : (c0 ++ [Char.ofNat 10]) ++ line ++ [Char.ofNat 10]
        = c0 ++ Char.ofNat 10 :: (line ++ [Char.ofNat 10]) := by simp
    rw [he, splitNl_append_newline, hl]
    simp

/-- Claim C9 as amended: add_channel_apt_deb is idempotent provided the
deb line contains no newline character and the existing file, when
present, is empty or ends with a newline (every file this facade itself
creates does, since each append ends with a newline). -/
theorem add_channel_apt_deb_idem (file : Option (List Char))
    (url codename : String) (components : List String)
    (hline : Char.ofNat 10 ∉ lineChars url codename components)
    (hfile : ∀ c, file = some c →
      c = [] ∨ ∃ c0, c = c0 ++ [Char.ofNat 10]) :
    add_channel_apt_deb (add_channel_apt_deb file url codename components)
      url codename components
      = add_channel_apt_deb file url codename components := by
  cases file with
  | none =>
    have hm := mem_splitNl_appended [] (lineChars url codename components)
      hline (Or.inl rfl)
    simp only [List.nil_append] at hm
    simp [add_channel_apt_deb, hm]
  | some c =>
    by_cases hmem : lineChars url codename components ∈ splitNl c
    · simp [add_channel_apt_deb, hmem]
    · have hm := mem_splitNl_appended c (lineChars url codename components)
        hline (hfile c rfl)
      have hm2 : lineChars url codename components ∈
          splitNl (c ++ (lineChars url codename components
            ++ [Char.ofNat 10])) := by
        simpa [List.append_assoc] using hm
      simp [add_channel_apt_deb, hmem, hm2]

/-- Witness for the amended C9 on a fresh file. -/
theorem add_channel_apt_deb_idem_witness :
    add_channel_apt_deb (add_channel_apt_deb none "http://u" "dist" ["main"])
      "http://u" "dist" ["main"]
      = add_channel_apt_deb none "http://u" "dist" ["main"] :=
  add_channel_apt_deb_idem none "http://u" "dist" ["main"] (by decide)
    (fun c hc => nomatch hc)

/-- Counterexample to claim C9 as stated: with a pre-existing sources
file whose content x does not end in a newline, a first call appends
the deb line after the x, and the second call, not finding the line
among the file's lines, appends it again, changing the file. -/
theorem add_channel_apt_deb_cex :
    add_channel_apt_deb
      (add_channel_apt_deb (some [Char.ofNat 120]) "u" "d" []) "u" "d" []
      ≠ add_channel_apt_deb (some [Char.ofNat 120]) "u" "d" [] := by
  decide


end Landscape
